import Mathlib

/-!
Verification development for the radix.v2 cluster client core: the per-node
connection pool (package `pool`) and the cluster coordinator
(`cluster/cluster.go`).  The Go code is shallowly embedded as pure Lean
functions; channels become bounded `List` buffers (send appends, receive takes
the head), atomic counters become plain `Int` fields of a state record, the
single-writer actor discipline lets all cluster mutations be modelled as a
sequential state transformer, and wall-clock instants are abstract `Nat`
timestamps threaded as a `now` argument.  Go runtime panics (division by zero,
out-of-range slices, negative channel capacities) are modelled as explicit
failure values.
-/

namespace RadixV2

/-- A `*redis.Client`: an opaque connection handle.  `id` distinguishes
connections, `addr` is the address it was dialed to (`client.Addr`), and
`lastCritical` models `client.LastCritical != nil`. -/
structure Conn where
  id : Nat
  addr : String
  lastCritical : Bool
deriving DecidableEq, Repr

/-- Ghost event record produced by each pool operation: the connections the
operation created (dialed) and the connections it removed from circulation
(closed, or discarded as already dead). -/
structure Ev where
  created : List Conn
  closed : List Conn
deriving DecidableEq, Repr

/-- No events. -/
def Ev.nil : Ev := ⟨[], []⟩

/-- Concatenation of event records. -/
def Ev.app (a b : Ev) : Ev := ⟨a.created ++ b.created, a.closed ++ b.closed⟩

/-- `waitForReuse = time.Minute`: idle time before surge connections are shed,
in the abstract time unit (nanoseconds, as in Go). -/
def waitForReuse : Nat := 60000000000

/-- `defaultMaxActive = 100`. -/
def defaultMaxActive : Int := 100

/-- The pool state (`pool.Pool`).  `pool` and `secondaryPool` are the two
bounded channels of idle connections, `size` and `secondaryCap` their
capacities, `active` the atomic counter of live connections, `stopped` records
that the one-shot stop signal has fired (`stopOnce`/`stopCh`), `dialOk`
models whether the `DialFunc` currently succeeds for this address, `nextId`
is a ghost counter issuing fresh connection ids, and `checkedOut` is the
ghost multiset of connections currently held by callers. -/
structure Pool where
  network : String
  addr : String
  size : Int
  secondaryCap : Int
  maxActive : Int
  pool : List Conn
  secondaryPool : List Conn
  secondaryActive : Nat
  active : Int
  stopped : Bool
  dialOk : Bool
  nextId : Nat
  checkedOut : List Conn
deriving DecidableEq, Repr

/-- A fallback pool value (used only to destructure constructor results). -/
def poolFallback : Pool :=
  { network := "", addr := "", size := 0, secondaryCap := 0, maxActive := 0,
    pool := [], secondaryPool := [], secondaryActive := 0, active := 0,
    stopped := false, dialOk := false, nextId := 0, checkedOut := [] }

/-- The `size` initial connections made by `NewCustom` (the one synchronous
`mkConn` plus the background ones, which the sequential model takes as already
completed). -/
def mkInitConns (addr : String) (n : Nat) : List Conn :=
  (List.range n).map (fun i => ⟨i, addr, false⟩)

/-- Outcome of `NewCustom`.  `illegal` is the `ErrIllegalArgument` return,
`crash` models the runtime panic of `make(chan ..., size)` on a negative
capacity, `okPool` is a `(pool, nil)` return and `okPoolWithDialErr` the
`(pool, err)` return when the synchronous first dial fails (the pool is
still handed back, empty but usable). -/
inductive NewResult
  | illegal
  | crash
  | okPool (p : Pool)
  | okPoolWithDialErr (p : Pool)
deriving DecidableEq, Repr

/-- Projection: the pool carried by a constructor outcome, if any. -/
def NewResult.poolOf : NewResult → Option Pool
  | .okPool p => some p
  | .okPoolWithDialErr p => some p
  | _ => none

/-- Projection: the pool carried by a constructor outcome, with fallback. -/
def NewResult.poolOrD (r : NewResult) (d : Pool) : Pool := (r.poolOf).getD d

/-- Projection: the effective `maxActive` of a constructed pool. -/
def NewResult.maxActiveOf : NewResult → Option Int
  | .okPool p => some p.maxActive
  | .okPoolWithDialErr p => some p.maxActive
  | _ => none

/-- `pool.NewCustom(network, addr, size, maxActive, df)`.  The argument check
`maxActive < size` precedes the `maxActive <= 0` defaulting, exactly as in the
source.  Initial dialing: if `size < 1` the pool is returned empty; otherwise
one connection is dialed synchronously (failure returns the pool alongside the
error) and the remaining `size-1` background dials are modelled as already
done (all via the same `dialOk` dial outcome). -/
def NewCustom (network addr : String) (size maxActive : Int) (dialOk : Bool) :
    NewResult :=
  if maxActive < size then .illegal
  else
    let ma := if maxActive ≤ 0 then defaultMaxActive else maxActive
    if size < 0 then .crash
    else
      let base : Pool :=
        { network := network, addr := addr, size := size,
          secondaryCap := ma - size, maxActive := ma, pool := [],
          secondaryPool := [], secondaryActive := 0, active := 0,
          stopped := false, dialOk := dialOk, nextId := 0, checkedOut := [] }
      if size < 1 then .okPool base
      else if dialOk then
        .okPool { base with
          pool := mkInitConns addr size.toNat,
          active := size,
          nextId := size.toNat }
      else .okPoolWithDialErr base

/-- One minute in nanoseconds (`time.Minute`). -/
def minuteNs : Int := 60000000000

/-- The interval of the background probe ticker started by `NewCustom`:
`5 * time.Minute / time.Duration(size)`.  `none` models a goroutine panic:
the integer division by zero when `size = 0`, or `time.NewTicker` panicking
on a non-positive interval.  A panicking goroutine crashes the whole
process. -/
def tickInterval (size : Int) : Option Int :=
  if size = 0 then none
  else
    let d := Int.tdiv (5 * minuteNs) size
    if d ≤ 0 then none else some d

/-- Errors `Pool.Get` can return: `ErrPoolExhausted`, or the dial error. -/
inductive PoolErr
  | exhausted
  | dialFail
deriving DecidableEq, Repr

/-- `Pool.Get`: take from `pool`, else from `secondaryPool` (stamping
`secondaryActive`), else reserve a slot on `active` (the CAS loop is a plain
check in this sequential model) and dial; a dial failure releases the
reservation.  Else `ErrPoolExhausted`. -/
def Pool.Get (p : Pool) (now : Nat) : Except PoolErr Conn × Pool × Ev :=
  match p.pool with
  | c :: rest =>
      (.ok c, { p with pool := rest, checkedOut := p.checkedOut ++ [c] }, Ev.nil)
  | [] =>
    match p.secondaryPool with
    | c :: rest =>
        (.ok c, { p with
          secondaryPool := rest,
          secondaryActive := now,
          checkedOut := p.checkedOut ++ [c] }, Ev.nil)
    | [] =>
      if p.active < p.maxActive then
        if p.dialOk then
          let c : Conn := ⟨p.nextId, p.addr, false⟩
          (.ok c, { p with
            active := p.active + 1,
            nextId := p.nextId + 1,
            checkedOut := p.checkedOut ++ [c] }, ⟨[c], []⟩)
        else (.error .dialFail, p, Ev.nil)
      else (.error .exhausted, p, Ev.nil)

/-- `Pool.Put`.  A healthy connection is offered to `pool`; on success, if the
secondary tier has been idle longer than `waitForReuse`, one surge connection
is drained (closed, `active` decremented), the timestamp being refreshed when
the tier is empty.  Else it is offered to `secondaryPool`; else it is closed
and `active` decremented.  A connection with a critical error is discarded:
`active` decremented, no `Close` call (the connection is already dead, which
the ghost `closed` event records as leaving circulation).  Note that `Put`
never consults `stopped`. -/
def Pool.Put (p : Pool) (conn : Conn) (now : Nat) : Pool × Ev :=
  if conn.lastCritical = false then
    if (p.pool.length : Int) < p.size then
      let q := { p with
        pool := p.pool ++ [conn],
        checkedOut := p.checkedOut.erase conn }
      if p.secondaryActive + waitForReuse < now then
        match q.secondaryPool with
        | c :: rest =>
            ({ q with secondaryPool := rest, active := q.active - 1 }, ⟨[], [c]⟩)
        | [] => ({ q with secondaryActive := now }, Ev.nil)
      else (q, Ev.nil)
    else if (p.secondaryPool.length : Int) < p.secondaryCap then
      ({ p with
        secondaryPool := p.secondaryPool ++ [conn],
        checkedOut := p.checkedOut.erase conn }, Ev.nil)
    else
      ({ p with active := p.active - 1, checkedOut := p.checkedOut.erase conn },
       ⟨[], [conn]⟩)
  else
    ({ p with active := p.active - 1, checkedOut := p.checkedOut.erase conn },
     ⟨[], [conn]⟩)

/-- `Pool.Empty`: fires the one-shot stop signal and drains-and-closes every
connection currently in `pool`.  The secondary tier is not drained and, as in
the source, `active` is not decremented for the closed connections. -/
def Pool.Empty (p : Pool) : Pool × Ev :=
  ({ p with stopped := true, pool := [] }, ⟨[], p.pool⟩)

/-- `Pool.Avail`: number of idle connections in the primary tier. -/
def Pool.Avail (p : Pool) : Nat := p.pool.length

/-- An observable pool operation. -/
inductive POp
  | get (now : Nat)
  | put (c : Conn) (now : Nat)
  | empty
deriving DecidableEq, Repr

/-- One observable step of a pool. -/
def Pool.step (p : Pool) : POp → Pool × Ev
  | .get now => let r := p.Get now; (r.2.1, r.2.2)
  | .put c now => p.Put c now
  | .empty => p.Empty

/-- The pool counter invariant: `active` is within bounds and dominates the
number of connections the pool knows about (idle in either tier or checked
out). -/
def Inv (p : Pool) : Prop :=
  0 ≤ p.active ∧ p.active ≤ p.maxActive ∧
    ((p.pool.length + p.secondaryPool.length + p.checkedOut.length : Nat) : Int)
      ≤ p.active

instance (p : Pool) : Decidable (Inv p) := by unfold Inv; infer_instance

/-- Well-formedness of an operation: callers only `Put` connections they have
checked out of this pool. -/
def WfOp (p : Pool) : POp → Prop
  | .put c _ => c ∈ p.checkedOut
  | _ => True

instance (p : Pool) (op : POp) : Decidable (WfOp p op) := by
  cases op <;> (unfold WfOp; infer_instance)

/-- Well-formedness of a whole operation sequence. -/
def WfTrace : Pool → List POp → Prop
  | _, [] => True
  | p, op :: ops => WfOp p op ∧ WfTrace (p.step op).1 ops

instance instDecWfTrace : (p : Pool) → (ops : List POp) → Decidable (WfTrace p ops)
  | _, [] => isTrue trivial
  | p, op :: ops =>
    have : Decidable (WfTrace (p.step op).1 ops) := instDecWfTrace _ _
    inferInstanceAs (Decidable (_ ∧ _))

/-- The invariant holds at every observable point along a trace. -/
def InvAlong : Pool → List POp → Prop
  | p, [] => Inv p
  | p, op :: ops => Inv p ∧ InvAlong (p.step op).1 ops

instance instDecInvAlong : (p : Pool) → (ops : List POp) → Decidable (InvAlong p ops)
  | _, [] => inferInstanceAs (Decidable (Inv _))
  | p, op :: ops =>
    have : Decidable (InvAlong (p.step op).1 ops) := instDecInvAlong _ _
    inferInstanceAs (Decidable (_ ∧ _))

/-- How one step changes `active` relative to the connections it creates and
removes from circulation: `Get`/`Put` keep `active` in lockstep with the
created/closed events, while `Empty` closes the primary tier without touching
`active`. -/
def ActiveDelta (p : Pool) (op : POp) : Prop :=
  match op with
  | .empty => (p.step op).1.active = p.active ∧ (p.step op).2.closed = p.pool
  | .get _ => (p.step op).1.active - p.active =
      ((p.step op).2.created.length : Int) - ((p.step op).2.closed.length : Int)
  | .put _ _ => (p.step op).1.active - p.active =
      ((p.step op).2.created.length : Int) - ((p.step op).2.closed.length : Int)

/-- The pool used in the C6 counterexample: `NewCustom("tcp","a",1,1,df)` with
a successful dial, holding its one initial idle connection. -/
def c6pool : Pool := (NewCustom "tcp" "a" 1 1 true).poolOrD poolFallback

/-- Scenario for C8: a one-slot pool whose single connection is checked out,
after which the pool is emptied (`stopped`, primary drained). -/
def c8pool0 : Pool := (NewCustom "tcp" "a" 1 1 true).poolOrD poolFallback

/-- The checked-out connection of the C8 scenario. -/
def c8conn : Conn := ⟨0, "a", false⟩

/-- The stopped pool of the C8 scenario. -/
def c8stopped : Pool := (((c8pool0.Get 0).2.1).Empty).1

/-- Whether a `Get` outcome is the pool-exhausted error. -/
def isExhausted : Except PoolErr Conn → Bool
  | .error .exhausted => true
  | _ => false

/-- Iterate `Get` n times, reporting whether every call succeeded. -/
def iterGet (p : Pool) (now : Nat) : Nat → Pool × Bool
  | 0 => (p, true)
  | n + 1 =>
    match p.Get now with
    | (.ok _, p2, _) => iterGet p2 now n
    | (.error _, p2, _) => (p2, false)

/-- The pool of claim C9: `NewCustom` with `size = 0`, `maxActive = 5`. -/
def c9pool : Pool := (NewCustom "tcp" "a" 0 5 true).poolOrD poolFallback

/-- First index of a character in a character list (`strings.Index` for a
one-character needle). -/
def strIdxC (c : Char) : List Char → Option Nat
  | [] => none
  | x :: xs => if x = c then some 0 else (strIdxC c xs).map (fun n => n + 1)

/-- The hash-tag reduction performed by `addrForKeyInner`:

    if start := strings.Index(key, "{"); start >= 0 {
        if end := strings.Index(key[start+2:], "}"); end >= 0 {
            key = key[start+1 : start+2+end]
        }
    }

Note the close brace is searched for in `key[start+2:]`, i.e. only from two
characters past the open brace.  `none` models the Go slice-bounds panic of
`key[start+2:]` when the first open brace is the last character of the key. -/
def hashTag (key : List Char) : Option (List Char) :=
  match strIdxC '{' key with
  | none => some key
  | some start =>
    if start + 2 ≤ key.length then
      match strIdxC '}' (key.drop (start + 2)) with
      | none => some key
      | some e => some ((key.drop (start + 1)).take (e + 1))
    else none

/-- The hash-tag rule as claim C5 states it: the key is reduced to the
substring strictly between the first open brace and the next close brace
after it (possibly empty). -/
def specHashTag (key : List Char) : List Char :=
  match strIdxC '{' key with
  | none => key
  | some start =>
    match strIdxC '}' (key.drop (start + 1)) with
    | none => key
    | some e => (key.drop (start + 1)).take e

/-- The amended hash-tag rule: the close brace is looked for only from two
characters past the open brace (so a brace pair closed immediately is
skipped and the whole key is used); the tag is the substring strictly
between the two braces found this way. -/
def amendedHashTag (key : List Char) : List Char :=
  match strIdxC '{' key with
  | none => key
  | some start =>
    match strIdxC '}' (key.drop (start + 2)) with
    | none => key
    | some e => (key.drop (start + 1)).take (e + 1)

/-- One shift-and-reduce round of the CRC computation (polynomial 0x1021). -/
def crc16Round (c : Nat) : Nat :=
  if c &&& 32768 ≠ 0 then ((c <<< 1) ^^^ 4129) % 65536 else (c <<< 1) % 65536

/-- Fold one byte into the CRC state (eight rounds, byte entering high). -/
def crc16Byte (c b : Nat) : Nat :=
  let c2 := (c ^^^ ((b % 256) <<< 8)) % 65536
  crc16Round (crc16Round (crc16Round (crc16Round
    (crc16Round (crc16Round (crc16Round (crc16Round c2)))))))

/-- Modelled from the spec: `CRC16(bytes) → uint16` is an external pure
collaborator (spec interface section) whose implementation is not under
`src/`; it is realized here as the standard CRC16-CCITT (XMODEM) function
used for cluster slot hashing (init 0, polynomial 0x1021, no reflection). -/
def crc16 (bs : List Nat) : Nat := bs.foldl crc16Byte 0

/-- The slot an ASCII key is routed to: hash-tag reduction, then
`CRC16(key) % 16384`.  `none` is the slice-bounds panic case of the tag
reduction. -/
def slotOfKey (key : String) : Option Nat :=
  (hashTag key.data).map (fun t => crc16 (t.map Char.toNat) % 16384)

/-- One entry of the parsed `CLUSTER SLOTS` reply: the slot range and the
master's ip/port (only the first, master, address is consulted by the code).
The element-wise RESP decoding (`.Array()/.Int()/.Str()` conversions) is
collapsed into this already-structured form. -/
structure SlotGroup where
  start : Int
  stop : Int
  ip : String
  port : Int
deriving DecidableEq, Repr

/-- A server reply (`*redis.Resp`), restricted to the shapes the cluster code
inspects: a plain success, an array success (the `CLUSTER SLOTS` shape), an
application-level error, or an I/O-kind error (`IsType(redis.IOErr)`). -/
inductive Resp
  | str (s : String)
  | arr (gs : List SlotGroup)
  | appErr (msg : String)
  | ioErr (msg : String)
deriving DecidableEq, Repr

/-- `r.Err`: the error message carried by a reply, if any. -/
def Resp.errMsg : Resp → Option String
  | .str _ => none
  | .arr _ => none
  | .appErr m => some m
  | .ioErr m => some m

/-- `r.IsType(redis.IOErr)`. -/
def Resp.isNetErr : Resp → Bool
  | .ioErr _ => true
  | _ => false

/-- `r.Array()`: array conversion, failing on errors and non-array replies. -/
def Resp.arrOf : Resp → Except String (List SlotGroup)
  | .arr gs => .ok gs
  | .appErr m => .error m
  | .ioErr m => .error m
  | .str _ => .error "response is not an array"

/-- The commands the embedded cluster code issues on a connection. -/
inductive GoCmd
  | asking
  | clusterSlots
  | run
deriving DecidableEq, Repr

/-- The server oracle: the reply each node address gives to each command. -/
def ExecFn : Type := String → GoCmd → Resp

/-- The cluster options the embedded code reads: the per-node pool size and
the dial outcome per address (the `DialFunc` built in `newPool`). -/
structure Opts where
  poolSize : Int
  dialOk : String → Bool

/-- The cluster state owned by the actor: the slot map (an array of 16384
address strings, embedded as a total function on `Int` indices), the pool
registry, and the reset-throttle state (`resetThrottle == nil`, and whether a
ticker token is currently available).  The informational `MissCh`/`ChangeCh`
channels drop their message when nobody listens and carry no state. -/
structure ClusterState where
  mapping : Int → String
  pools : List (String × Pool)
  throttleSet : Bool
  throttleTok : Bool
  o : Opts

/-- Association-list lookup (Go map read). -/
def lookupA {α : Type} : List (String × α) → String → Option α
  | [], _ => none
  | (k, v) :: rest, key => if k = key then some v else lookupA rest key

/-- Replace the value stored under an existing key (Go map write through a
pointer-valued entry: the key set is unchanged). -/
def updateA {α : Type} (l : List (String × α)) (key : String) (v : α) :
    List (String × α) :=
  l.map (fun e => if e.fst = key then (e.fst, v) else e)

/-- Go map insert: replace if present, else append. -/
def insertA {α : Type} (l : List (String × α)) (key : String) (v : α) :
    List (String × α) :=
  if (lookupA l key).isSome then updateA l key v else l ++ [(key, v)]

/-- Error string of a pool error (`ErrPoolExhausted`, dial failure). -/
def poolErrStr : PoolErr → String
  | .exhausted => "redis: connection pool exhausted"
  | .dialFail => "dial failed"

/-- `newPool(addr, o)` in cluster.go: `pool.NewCustom("tcp", addr,
o.PoolSize, df)`.  The cluster passes no explicit `maxActive`, so the pool
package's default bound 100 applies; `df` dials `addr`, modelled by
`o.dialOk`.  A `(pool, err)` return with non-nil error is an error for the
caller (which then ignores the pool), and the negative-size runtime panic is
surfaced as an error as well (never reached: `PoolSize` defaults to 10). -/
def newPoolC (addr : String) (o : Opts) : Except String Pool :=
  match NewCustom "tcp" addr o.poolSize defaultMaxActive (o.dialOk addr) with
  | .okPool p => .ok p
  | .okPoolWithDialErr _ => .error "dial failed"
  | .illegal => .error "redis pool: bad arguments"
  | .crash => .error "makechan: size out of range"

/-- `addrForKeyInner`: hash-tag reduction, CRC16 mod 16384, slot-map lookup.
`none` is the Go slice-bounds panic of the tag reduction. -/
def addrForKeyInner (st : ClusterState) (key : String) : Option String :=
  (slotOfKey key).map (fun i => st.mapping (i : Int))

/-- `getRandomPoolInner`: Go map iteration yields some pool; the embedding
takes the first registry entry. -/
def getRandomPoolInner (st : ClusterState) : Option (String × Pool) :=
  st.pools.head?

/-- The random-pool fallback at the bottom of `getConn`. -/
def randomFallback (st : ClusterState) (now : Nat) :
    Except String Conn × ClusterState :=
  match getRandomPoolInner st with
  | none => (.error "no pools to pull from", st)
  | some (a, p) =>
    match p.Get now with
    | (.ok conn, p2, _) => (.ok conn, { st with pools := updateA st.pools a p2 })
    | (.error e, _, _) => (.error (poolErrStr e), st)

/-- `getConn(key, addr)`: resolve the address from the key when a key is
given; borrow from the registered pool for that address, or from a freshly
constructed pool when the address is unknown — note that the fresh pool is
NOT recorded in the registry; on any failure fall back to a random
registered pool. -/
def getConn (st : ClusterState) (key addr : String) (now : Nat) :
    Except String Conn × ClusterState :=
  match (if key ≠ "" then addrForKeyInner st key else some addr) with
  | none => (.error "slice bounds out of range", st)
  | some addr2 =>
    match lookupA st.pools addr2 with
    | some p =>
      match p.Get now with
      | (.ok conn, p2, _) =>
          (.ok conn, { st with pools := updateA st.pools addr2 p2 })
      | (.error _, _, _) => randomFallback st now
    | none =>
      match newPoolC addr2 st.o with
      | .ok p =>
        match p.Get now with
        | (.ok conn, _, _) => (.ok conn, st)
        | (.error _, _, _) => randomFallback st now
      | .error _ => randomFallback st now

/-- `Cluster.Put`: return the connection to the pool registered under its
address, or close it when no such pool exists. -/
def clusterPut (st : ClusterState) (conn : Conn) (now : Nat) :
    ClusterState × Ev :=
  match lookupA st.pools conn.addr with
  | none => (st, ⟨[], [conn]⟩)
  | some p =>
    let r := p.Put conn now
    ({ st with pools := updateA st.pools conn.addr r.1 }, r.2)

/-- The borrow loop of `GetEvery`: borrow one connection per registered pool
in iteration order; the first failure aborts with that error.  Returns the
outcome, the registry after the borrows performed so far, the address/
connection pairs collected before the stop (the map `m`, which the code
discards on error), and the close events (there are none: `GetEvery` closes
nothing). -/
def getEveryLoop (now : Nat) :
    List (String × Pool) →
    Except String Unit × List (String × Pool) × List (String × Conn) × Ev
  | [] => (.ok (), [], [], Ev.nil)
  | (a, p) :: rest =>
    match p.Get now with
    | (.error e, p2, ev) => (.error (poolErrStr e), (a, p2) :: rest, [], ev)
    | (.ok c, p2, ev) =>
      let r := getEveryLoop now rest
      (r.1, (a, p2) :: r.2.1, (a, c) :: r.2.2.1, ev.app r.2.2.2)

/-- `Cluster.GetEvery`.  The third component is ghost output: the connections
that had already been borrowed when a failure struck (the code drops its
partial map `m` on error, returning only the error). -/
def GetEvery (st : ClusterState) (now : Nat) :
    Except String (List (String × Conn)) × ClusterState ×
      List (String × Conn) × Ev :=
  let r := getEveryLoop now st.pools
  match r.1 with
  | .ok _ => (.ok r.2.2.1, { st with pools := r.2.1 }, [], r.2.2.2)
  | .error e => (.error e, { st with pools := r.2.1 }, r.2.2.1, r.2.2.2)

/-- Write one slot of the slot map. -/
def mapSet (m : Int → String) (slot : Int) (addr : String) : Int → String :=
  fun i => if i = slot then addr else m i

/-- The `for i := start; i <= end; i++ { c.mapping[i] = slotAddr }` loop. -/
def setRange (m : Int → String) (a b : Int) (addr : String) : Int → String :=
  fun i => if a ≤ i ∧ i ≤ b then addr else m i

/-- The master address of a slot group: an empty ip means the node the reply
was obtained from, else `ip + ":" + strconv.Itoa(port)`. -/
def masterAddr (src : String) (g : SlotGroup) : String :=
  if g.ip = "" then src else g.ip ++ ":" ++ toString g.port

/-- Accumulator of the `CLUSTER SLOTS` processing loop in `resetInner`: the
slot map being mutated in place, the new registry being built, and the
`changed` flag. -/
structure ResetAcc where
  mapping : Int → String
  newPools : List (String × Pool)
  changed : Bool

/-- The slot-group loop of `resetInner`: set the slot range, carry the old
pool for the master address or construct a new one (setting `changed`); a
construction error aborts the loop (the slot-map mutations made so far
persist, as in the source, where `c.mapping` is written in place). -/
def slotsFold (o : Opts) (oldPools : List (String × Pool)) (src : String) :
    List SlotGroup → ResetAcc → ResetAcc × Option String
  | [], acc => (acc, none)
  | g :: gs, acc =>
    let sa := masterAddr src g
    let m2 := setRange acc.mapping g.start g.stop sa
    match lookupA oldPools sa with
    | some sp =>
        slotsFold o oldPools src gs ⟨m2, insertA acc.newPools sa sp, acc.changed⟩
    | none =>
      match newPoolC sa o with
      | .error e => (⟨m2, acc.newPools, acc.changed⟩, some e)
      | .ok np => slotsFold o oldPools src gs ⟨m2, insertA acc.newPools sa np, true⟩

/-- The sweep at the end of `resetInner`: every old pool whose address is not
in the new registry is `Empty()`-ed; returns the emptied addresses and the
resulting close events. -/
def sweepOld (newPools : List (String × Pool)) :
    List (String × Pool) → List String × Ev
  | [] => ([], Ev.nil)
  | (a, p) :: rest =>
    let r := sweepOld newPools rest
    if (lookupA newPools a).isSome then r
    else (a :: r.1, Ev.app (p.Empty).2 r.2)

/-- The outcome of `resetInner`: the returned error (if any), the cluster
state afterwards, the close events, the ghost list of emptied pool
addresses, and whether the `ChangeCh` notification fired. -/
structure ResetOut where
  res : Except String Unit
  st : ClusterState
  ev : Ev
  emptied : List String
  signal : Bool

/-- The non-throttled body of `resetInner`: borrow a client from a random
(first) pool, issue `CLUSTER SLOTS`, rebuild slot map and registry from the
reply, sweep pools that are no longer referenced, and replace the registry.
The borrowed client is closed (`defer client.Close()`), recorded as a close
event without touching its pool's counter, exactly as in the source. -/
def resetBody (exec : ExecFn) (st : ClusterState) (now : Nat) : ResetOut :=
  match getRandomPoolInner st with
  | none => ⟨.error "no available nodes to call CLUSTER SLOTS on", st, Ev.nil, [], false⟩
  | some (srcAddr, p) =>
    match p.Get now with
    | (.error e, _, _) => ⟨.error (poolErrStr e), st, Ev.nil, [], false⟩
    | (.ok client, p2, _) =>
      let st1 := { st with pools := updateA st.pools srcAddr p2 }
      match (exec srcAddr GoCmd.clusterSlots).arrOf with
      | .error e => ⟨.error e, st1, ⟨[], [client]⟩, [], false⟩
      | .ok gs =>
        if gs.isEmpty then
          ⟨.error "empty CLUSTER SLOTS response", st1, ⟨[], [client]⟩, [], false⟩
        else
          match slotsFold st1.o st1.pools srcAddr gs ⟨st1.mapping, [(srcAddr, p2)], false⟩ with
          | (acc, some e) =>
              ⟨.error e, { st1 with mapping := acc.mapping }, ⟨[], [client]⟩, [], false⟩
          | (acc, none) =>
            let sw := sweepOld acc.newPools st1.pools
            let changed := acc.changed || !sw.1.isEmpty
            ⟨.ok (), { st1 with mapping := acc.mapping, pools := acc.newPools },
              Ev.app ⟨[], [client]⟩ sw.2, sw.1, changed⟩

/-- `resetInner` with its throttle: the first ever call installs the ticker
and proceeds; later calls proceed only when a ticker token is available,
consuming it, and otherwise return nil without doing anything. -/
def resetInner (exec : ExecFn) (st : ClusterState) (now : Nat) : ResetOut :=
  if st.throttleSet then
    if st.throttleTok then resetBody exec { st with throttleTok := false } now
    else ⟨.ok (), st, Ev.nil, [], false⟩
  else resetBody exec { st with throttleSet := true } now

/-- `haveTried`. -/
def haveTried (tried : List String) (addr : String) : Bool := tried.contains addr

/-- `justTried` (a nil map is the empty set). -/
def justTried (tried : List String) (addr : String) : List String :=
  if tried.contains addr then tried else tried ++ [addr]

/-- `strings.Split` on a single-character separator, over character lists. -/
def splitCh (sep : Char) : List Char → List (List Char)
  | [] => [[]]
  | c :: cs =>
    if c = sep then [] :: splitCh sep cs
    else
      match splitCh sep cs with
      | g :: gs => (c :: g) :: gs
      | [] => [[c]]

/-- `strings.HasPrefix(s, pre)`. -/
def strStarts (s pre : String) : Bool := pre.data.isPrefixOf s.data

/-- Decimal digit value. -/
def digitVal? (c : Char) : Option Nat :=
  if '0' ≤ c ∧ c ≤ '9' then some (c.toNat - 48) else none

/-- `strconv.Atoi` on an unsigned decimal numeral (the slot field of a
redirect; sign handling is irrelevant for the slot numerals in scope). -/
def digitsToNat? (cs : List Char) : Option Nat :=
  if cs.isEmpty then none
  else
    cs.foldl
      (fun acc c =>
        match acc, digitVal? c with
        | some n, some d => some (n * 10 + d)
        | _, _ => none)
      (some 0)

/-- `redirectInfo(msg)`: fields 1 and 2 of the space-split message.  `none`
models the panics of the source: a malformed slot integer, or fewer than
three fields (index out of range). -/
def redirectInfo (msg : String) : Option (Int × String) :=
  match splitCh ' ' msg.data with
  | _ :: slotStr :: addr :: _ =>
    match digitsToNat? slotStr with
    | some n => some ((n : Int), String.mk addr)
    | none => none
  | _ => none

/-- The outcome of one iteration of `clientCmd`: a final reply, a recursive
retry with new arguments (the recursion of the source), or a crash
(`redirectInfo` panic).  The `defer c.Put(client)` of each frame runs when
the frame returns and is applied by the driver below. -/
inductive StepRes
  | done (r : Resp) (st : ClusterState)
  | retry (client : Conn) (ask : Bool) (tried : List String) (haveReset : Bool)
      (st : ClusterState)
  | crashed (st : ClusterState)

/-- Projection: is the step outcome a retry? -/
def StepRes.isRetry : StepRes → Bool
  | .retry _ _ _ _ _ => true
  | _ => false

/-- Projection: the tried set a retry continues with. -/
def StepRes.triedOf : StepRes → List String
  | .retry _ _ t _ _ => t
  | _ => []

/-- Projection: the ask flag a retry continues with. -/
def StepRes.askOf : StepRes → Bool
  | .retry _ a _ _ _ => a
  | _ => false

/-- Projection: the haveReset flag a retry continues with. -/
def StepRes.resetOf : StepRes → Bool
  | .retry _ _ _ h _ => h
  | _ => false

/-- The Reset-then-random-retry ladder shared by the I/O error branch:
`Reset()` (its failure wrapped and returned), then a connection from an
arbitrary pool and a retry with `haveReset = true` and the tried set CARRIED
OVER (the source passes `tried`, not nil, here). -/
def ioResetLadder (exec : ExecFn) (st : ClusterState) (tried : List String)
    (haveReset : Bool) (r : Resp) (now : Nat) : StepRes :=
  if haveReset = false then
    let ro := resetInner exec st now
    match ro.res with
    | .error e => .done (.appErr ("Could not get cluster info: " ++ e)) ro.st
    | .ok _ =>
      match getConn ro.st "" "" now with
      | (.error ge, st2) => .done (.appErr ge) st2
      | (.ok c2, st2) => .retry c2 false tried true st2
  else .done r st

/-- The error dispatch of one `clientCmd` iteration on the reply `r`:
success returns; a network error enters the retry ladder; a MOVED/ASK
redirect is followed (slot-map update for MOVED only); any other error is
returned verbatim.  The `MissCh` notification of the redirect branch drops
when nobody listens and has no state effect. -/
def clientCmdDispatch (exec : ExecFn) (st : ClusterState) (client : Conn)
    (tried : List String) (haveReset : Bool) (now : Nat) (r : Resp) : StepRes :=
  match r.errMsg with
  | none => .done r st
  | some msg =>
    let htb := haveTried tried client.addr
    let tried2 := justTried tried client.addr
    if r.isNetErr then
      if htb = false then
        match getConn st "" client.addr now with
        | (.ok c2, st2) => .retry c2 false tried2 haveReset st2
        | (.error _, st2) => ioResetLadder exec st2 tried2 haveReset r now
      else ioResetLadder exec st tried2 haveReset r now
    else
      let moved := strStarts msg "MOVED "
      let askF := strStarts msg "ASK "
      if moved || askF then
        match redirectInfo msg with
        | none => .crashed st
        | some si =>
          if haveTried tried2 si.2 then
            if haveReset then .done (.appErr "Cluster doesn't make sense") st
            else
              let ro := resetInner exec st now
              match ro.res with
              | .error e => .done (.appErr ("Could not get cluster info: " ++ e)) ro.st
              | .ok _ =>
                match getConn ro.st "" "" now with
                | (.error ge, st3) =>
                    .done (.appErr ("No available cluster nodes: " ++ ge)) st3
                | (.ok c2, st3) => .retry c2 false [] true st3
          else
            let st1 :=
              if moved then { st with mapping := mapSet st.mapping si.1 si.2 } else st
            match getConn st1 "" si.2 now with
            | (.error ge, st2) => .done (.appErr ge) st2
            | (.ok c2, st2) => .retry c2 askF tried2 haveReset st2
      else .done r st

/-- One iteration of `clientCmd`: the optional `ASKING` preamble (the real
command is skipped when ASKING itself failed), the real command, then the
error dispatch above.  The first component is the trace of commands issued
on connections during this iteration. -/
def clientCmdStep (exec : ExecFn) (st : ClusterState) (client : Conn)
    (ask : Bool) (tried : List String) (haveReset : Bool) (now : Nat) :
    List (String × GoCmd) × StepRes :=
  let ra : Option Resp := if ask then some (exec client.addr GoCmd.asking) else none
  let r : Resp :=
    match ra with
    | some r0 => if r0.errMsg = none then exec client.addr GoCmd.run else r0
    | none => exec client.addr GoCmd.run
  let issued : List (String × GoCmd) :=
    match ra with
    | some r0 =>
      if r0.errMsg = none then
        [(client.addr, GoCmd.asking), (client.addr, GoCmd.run)]
      else [(client.addr, GoCmd.asking)]
    | none => [(client.addr, GoCmd.run)]
  (issued, clientCmdDispatch exec st client tried haveReset now r)

/-- The full `clientCmd` recursion, driven with fuel (the source's recursion
is not structurally bounded: a degenerate oracle can redirect forever).
Each frame's deferred `Cluster.Put` of its client runs when the frame
returns, innermost first. -/
def clientCmdRun (exec : ExecFn) (now : Nat) :
    Nat → ClusterState → Conn → Bool → List String → Bool →
    Option (Resp × ClusterState)
  | 0, _, _, _, _, _ => none
  | fuel + 1, st, client, ask, tried, haveReset =>
    match (clientCmdStep exec st client ask tried haveReset now).2 with
    | .done r st2 => some (r, (clusterPut st2 client now).1)
    | .crashed _ => none
    | .retry c2 a2 t2 h2 st2 =>
      match clientCmdRun exec now fuel st2 c2 a2 t2 h2 with
      | none => none
      | some (r, st3) => some (r, (clusterPut st3 client now).1)

deriving instance DecidableEq for Except

/-- Whether an `Except` value is a success. -/
def exOk {ε α : Type} : Except ε α → Bool
  | .ok _ => true
  | .error _ => false

/-- A connection is currently checked out of the pool registered under the
given address. -/
def heldBy (ps : List (String × Pool)) (a : String) (c : Conn) : Prop :=
  match lookupA ps a with
  | some p => c ∈ p.checkedOut
  | none => False

instance (ps : List (String × Pool)) (a : String) (c : Conn) :
    Decidable (heldBy ps a c) := by
  unfold heldBy
  cases lookupA ps a
  · exact isFalse (fun h => h)
  · infer_instance

/-- The options and concrete states used by the cluster counterexamples and
witnesses: pool size 1, dialing succeeds for every non-empty address. -/
def oTest : Opts := ⟨1, fun a => a != ""⟩

/-- A registered pool at address A:1 holding one idle connection. -/
def poolA : Pool := (NewCustom "tcp" "A:1" 1 100 true).poolOrD poolFallback

/-- A concrete cluster state whose registry holds exactly the A:1 pool. -/
def stA : ClusterState :=
  { mapping := fun _ => "A:1", pools := [("A:1", poolA)],
    throttleSet := false, throttleTok := false, o := oTest }

/-- A busy pool: no idle connections and `active = maxActive`, so `Get`
reports pool-exhausted. -/
def c10poolB : Pool :=
  { network := "tcp", addr := "B:1", size := 1, secondaryCap := 0,
    maxActive := 1, pool := [], secondaryPool := [], secondaryActive := 0,
    active := 1, stopped := false, dialOk := true, nextId := 5,
    checkedOut := [] }

/-- Concrete cluster state for the C10 witness: the first pool yields a
connection, the second is exhausted. -/
def stC10 : ClusterState :=
  { mapping := fun _ => "A:1", pools := [("A:1", poolA), ("B:1", c10poolB)],
    throttleSet := false, throttleTok := false, o := oTest }

/-- A server oracle whose `CLUSTER SLOTS` reply names a single master
1.2.3.4:7 for slots 0-3 (and every other command succeeds). -/
def execOneGroup : ExecFn := fun _ c =>
  if c = GoCmd.clusterSlots then Resp.arr [⟨0, 3, "1.2.3.4", 7⟩] else Resp.str "OK"

/-- The client connection of the retry-loop scenarios, dialed to A:1. -/
def cA : Conn := ⟨0, "A:1", false⟩

/-- An oracle whose every node returns an I/O error for the real command and
a whole-range `CLUSTER SLOTS` reply naming the source node (empty ip). -/
def exec4 : ExecFn := fun _ c =>
  match c with
  | GoCmd.run => .ioErr "io timeout"
  | GoCmd.clusterSlots => .arr [⟨0, 16383, "", 6379⟩]
  | GoCmd.asking => .str "OK"

/-- A cluster state with an empty pool registry. -/
def stEmpty : ClusterState :=
  { mapping := fun _ => "", pools := [], throttleSet := false,
    throttleTok := false, o := oTest }

/-- The oracle of the MOVED scenario: node A:1 redirects slot 7000 to B:1. -/
def execMoved : ExecFn := fun a c =>
  match c with
  | GoCmd.run => if a = "A:1" then .appErr "MOVED 7000 B:1" else .str "OK"
  | GoCmd.asking => .str "OK"
  | GoCmd.clusterSlots => .str "OK"

/-- The oracle of the ASK scenario: node A:1 asks slot 7000 over to B:1. -/
def execAsk : ExecFn := fun a c =>
  match c with
  | GoCmd.run => if a = "A:1" then .appErr "ASK 7000 B:1" else .str "OK"
  | GoCmd.asking => .str "OK"
  | GoCmd.clusterSlots => .str "OK"

/-- A registered pool at address B:1 holding one idle connection. -/
def poolB : Pool := (NewCustom "tcp" "B:1" 1 100 true).poolOrD poolFallback

/-- A cluster state whose registry holds pools for A:1 and B:1. -/
def stAB : ClusterState :=
  { mapping := fun _ => "A:1", pools := [("A:1", poolA), ("B:1", poolB)],
    throttleSet := false, throttleTok := false, o := oTest }

/-- stAB after the MOVED update of slot 7000 to B:1. -/
def stABupd : ClusterState :=
  { stAB with mapping := mapSet stAB.mapping 7000 "B:1" }

/-- The idle connection of the B:1 pool. -/
def cB : Conn := ⟨0, "B:1", false⟩

lemma inv_step (p : Pool) (op : POp) (hI : Inv p) (hW : WfOp p op) :
    Inv (p.step op).1 := by
  obtain ⟨h0, hMax, hSum⟩ := hI
  cases op with
  | get now =>
    show Inv (p.Get now).2.1
    unfold Pool.Get
    cases hp : p.pool with
    | cons c rest =>
      rw [hp] at hSum
      unfold Inv
      simp
      simp only [List.length_cons] at hSum
      omega
    | nil =>
      rw [hp] at hSum
      cases hs : p.secondaryPool with
      | cons c rest =>
        rw [hs] at hSum
        unfold Inv
        simp
        simp only [List.length_cons, List.length_nil] at hSum
        omega
      | nil =>
        rw [hs] at hSum
        simp only [List.length_nil] at hSum
        by_cases hact : p.active < p.maxActive
        · by_cases hd : p.dialOk
          · rw [if_pos hact, if_pos hd]
            unfold Inv
            simp
            omega
          · rw [if_pos hact, if_neg hd]
            exact ⟨h0, hMax, by simp only [hp, hs, List.length_nil]; omega⟩
        · rw [if_neg hact]
          exact ⟨h0, hMax, by simp only [hp, hs, List.length_nil]; omega⟩
  | put c now =>
    have hmem : c ∈ p.checkedOut := hW
    have hne : p.checkedOut.length ≠ 0 :=
      Nat.pos_iff_ne_zero.mp (List.length_pos.mpr (List.ne_nil_of_mem hmem))
    have herase : (p.checkedOut.erase c).length = p.checkedOut.length - 1 :=
      List.length_erase_of_mem hmem
    show Inv (p.Put c now).1
    unfold Pool.Put
    by_cases hcrit : c.lastCritical = false
    · rw [if_pos hcrit]
      by_cases hroom : (p.pool.length : Int) < p.size
      · rw [if_pos hroom]
        by_cases hstale : p.secondaryActive + waitForReuse < now
        · rw [if_pos hstale]
          cases hs : p.secondaryPool with
          | cons c2 rest =>
            rw [hs] at hSum
            unfold Inv
            simp
            simp only [List.length_cons] at hSum
            omega
          | nil =>
            rw [hs] at hSum
            unfold Inv
            simp
            simp only [List.length_nil] at hSum
            omega
        · rw [if_neg hstale]
          unfold Inv
          simp
          omega
      · rw [if_neg hroom]
        by_cases hroom2 : (p.secondaryPool.length : Int) < p.secondaryCap
        · rw [if_pos hroom2]
          unfold Inv
          simp
          omega
        · rw [if_neg hroom2]
          unfold Inv
          simp
          omega
    · rw [if_neg hcrit]
      unfold Inv
      simp
      omega
  | empty =>
    show Inv (p.Empty).1
    unfold Pool.Empty
    unfold Inv
    simp
    omega

lemma inv_along (p : Pool) (ops : List POp) (hI : Inv p) (hW : WfTrace p ops) :
    InvAlong p ops := by
  induction ops generalizing p with
  | nil => exact hI
  | cons op ops ih =>
    obtain ⟨hop, hrest⟩ := hW
    exact ⟨hI, ih _ (inv_step p op hI hop) hrest⟩

lemma active_delta (p : Pool) (op : POp) : ActiveDelta p op := by
  cases op with
  | get now =>
    show (p.Get now).2.1.active - p.active =
      ((p.Get now).2.2.created.length : Int) - ((p.Get now).2.2.closed.length : Int)
    unfold Pool.Get
    cases hp : p.pool with
    | cons c rest => simp [Ev.nil]
    | nil =>
      cases hs : p.secondaryPool with
      | cons c rest => simp [Ev.nil]
      | nil =>
        by_cases hact : p.active < p.maxActive
        · by_cases hd : p.dialOk
          · rw [if_pos hact, if_pos hd]; simp
          · rw [if_pos hact, if_neg hd]; simp [Ev.nil]
        · rw [if_neg hact]; simp [Ev.nil]
  | put c now =>
    show (p.Put c now).1.active - p.active =
      ((p.Put c now).2.created.length : Int) - ((p.Put c now).2.closed.length : Int)
    unfold Pool.Put
    by_cases hcrit : c.lastCritical = false
    · rw [if_pos hcrit]
      by_cases hroom : (p.pool.length : Int) < p.size
      · rw [if_pos hroom]
        by_cases hstale : p.secondaryActive + waitForReuse < now
        · rw [if_pos hstale]
          cases hs : p.secondaryPool with
          | cons c2 rest => simp [Ev.nil]
          | nil => simp [Ev.nil]
        · rw [if_neg hstale]; simp [Ev.nil]
      · rw [if_neg hroom]
        by_cases hroom2 : (p.secondaryPool.length : Int) < p.secondaryCap
        · rw [if_pos hroom2]; simp [Ev.nil]
        · rw [if_neg hroom2]; simp [Ev.nil]
    · rw [if_neg hcrit]; simp [Ev.nil]
  | empty =>
    show (p.Empty).1.active = p.active ∧ (p.Empty).2.closed = p.pool
    unfold Pool.Empty
    simp

/-- Claim C6 asserts that `active` decreases by exactly one each time a
connection is permanently closed.  False: `Empty` on a pool holding one idle
connection closes that connection while leaving `active` at 1. -/
theorem C6_counterexample :
    (c6pool.step POp.empty).2.closed.length = 1 ∧
    (c6pool.step POp.empty).1.active = c6pool.active ∧
    ¬ (c6pool.step POp.empty).1.active = c6pool.active - 1 := by decide

/-- Claim C6, amended: under any well-formed sequence of Get/Put/Empty
operations, `0 ≤ active ≤ maxActive` holds at every observable point, and
`Get`/`Put` change `active` by exactly the number of connections created minus
the number removed from circulation; `Empty`, however, closes the idle primary
connections without decrementing `active`. -/
theorem C6_theorem :
    (∀ (p : Pool) (ops : List POp), Inv p → WfTrace p ops → InvAlong p ops) ∧
    (∀ (p : Pool) (op : POp), ActiveDelta p op) :=
  ⟨inv_along, active_delta⟩

/-- Witness for C6_theorem at a concrete pool and trace. -/
theorem C6_theorem_witness :
    InvAlong c6pool [POp.get 0, POp.put ⟨0, "a", false⟩ 5, POp.empty] ∧
    ActiveDelta c6pool (POp.get 0) :=
  ⟨C6_theorem.1 c6pool [POp.get 0, POp.put ⟨0, "a", false⟩ 5, POp.empty]
      (by decide) (by decide),
   C6_theorem.2 c6pool (POp.get 0)⟩

/-- Claim C7 asserts that for every `maxActive ≤ 0`, with any `size`, the pool
is constructed with the default bound 100.  False: with `size = 1`,
`maxActive = 0` the `maxActive < size` check fires first and construction
fails with `ErrIllegalArgument`. -/
theorem C7_counterexample :
    NewCustom "tcp" "a" 1 0 true = NewResult.illegal ∧
    ¬ (NewCustom "tcp" "a" 1 0 true).maxActiveOf = some 100 := by decide

/-- Claim C7, amended: construction fails with the bad-arguments error exactly
when `size > maxActive`; when `maxActive ≤ 0` and the check passes (so
`size ≤ maxActive ≤ 0`), the effective bound becomes 100 — for `size < 0` the
negative channel allocation panics, so the only surviving default case is
`size = 0`. -/
theorem C7_theorem :
    ∀ (network addr : String) (size maxActive : Int) (d : Bool),
      (NewCustom network addr size maxActive d = NewResult.illegal ↔
        maxActive < size) ∧
      (maxActive ≤ 0 → ¬ maxActive < size →
        (size < 0 → NewCustom network addr size maxActive d = NewResult.crash) ∧
        (0 ≤ size →
          (NewCustom network addr size maxActive d).maxActiveOf = some 100)) := by
  intro network addr size maxActive d
  constructor
  · constructor
    · intro h
      by_contra hlt
      unfold NewCustom at h
      rw [if_neg hlt] at h
      by_cases hneg : size < 0
      · simp [hneg] at h
      · by_cases hsz : size < 1
        · simp [hneg, hsz] at h
        · by_cases hd : d
          · simp [hneg, hsz, hd] at h
          · simp [hneg, hsz, hd] at h
    · intro h
      unfold NewCustom
      rw [if_pos h]
  · intro hma hnlt
    constructor
    · intro hneg
      unfold NewCustom
      rw [if_neg hnlt, if_pos hneg]
    · intro hpos
      have hsz0 : size = 0 := by omega
      subst hsz0
      unfold NewCustom
      rw [if_neg hnlt]
      simp [NewResult.maxActiveOf, hma, defaultMaxActive]

/-- Witness for C7_theorem: `maxActive = 0, size = 0` constructs with the
default bound 100, and `maxActive = 1 < size = 2` is rejected. -/
theorem C7_theorem_witness :
    (NewCustom "tcp" "a" 0 0 true).maxActiveOf = some 100 ∧
    NewCustom "tcp" "b" 2 1 true = NewResult.illegal := by
  have h := C7_theorem
  exact ⟨((h "tcp" "a" 0 0 true).2 (by decide) (by decide)).2 (by decide),
    (h "tcp" "b" 2 1 true).1.mpr (by decide)⟩

/-- Claim C8 asserts that after `Empty()` every subsequent `Put` closes the
connection and decrements `active`.  False: `Put` never consults the stopped
flag; a healthy connection is placed back into the drained primary buffer,
nothing is closed and `active` is unchanged. -/
theorem C8_counterexample :
    c8stopped.stopped = true ∧
    (c8stopped.Put c8conn 0).1.pool = [c8conn] ∧
    (c8stopped.Put c8conn 0).2.closed = [] ∧
    (c8stopped.Put c8conn 0).1.active = c8stopped.active := by decide

/-- Claim C8, amended: `Empty()` is not terminal for `Put`.  `Put` ignores the
stopped flag entirely (its result is the same up to that flag), so a healthy
connection put into a stopped pool with primary room re-enters the primary
buffer — it leaks into the stopped pool, is not closed, and `active` is
unchanged (when the secondary tier is empty). -/
theorem C8_theorem :
    (∀ (p : Pool) (c : Conn) (now : Nat) (b : Bool),
      Pool.Put { p with stopped := b } c now =
        ({ (Pool.Put p c now).1 with stopped := b }, (Pool.Put p c now).2)) ∧
    (∀ (p : Pool) (c : Conn) (now : Nat),
      p.stopped = true → c.lastCritical = false →
      (p.pool.length : Int) < p.size → p.secondaryPool = [] →
      (p.Put c now).1.pool = p.pool ++ [c] ∧
      (p.Put c now).2.closed = [] ∧
      (p.Put c now).1.active = p.active ∧
      (p.Put c now).1.stopped = true) := by
  constructor
  · intro p c now b
    unfold Pool.Put
    by_cases hcrit : c.lastCritical = false
    · by_cases hroom : (p.pool.length : Int) < p.size
      · by_cases hstale : p.secondaryActive + waitForReuse < now
        · cases hs : p.secondaryPool with
          | cons c2 rest => simp [hcrit, hroom, hstale, hs]
          | nil => simp [hcrit, hroom, hstale, hs]
        · simp [hcrit, hroom, hstale]
      · by_cases hroom2 : (p.secondaryPool.length : Int) < p.secondaryCap
        · simp [hcrit, hroom, hroom2]
        · simp [hcrit, hroom, hroom2]
    · simp [hcrit]
  · intro p c now hstop hcrit hroom hsec
    unfold Pool.Put
    by_cases hstale : p.secondaryActive + waitForReuse < now
    · simp [hcrit, hroom, hstale, hsec, hstop, Ev.nil]
    · simp [hcrit, hroom, hstale, hstop, Ev.nil]

/-- Witness for C8_theorem at the concrete stopped pool. -/
theorem C8_theorem_witness :
    (Pool.Put { c8pool0 with stopped := true } c8conn 0 =
      ({ (Pool.Put c8pool0 c8conn 0).1 with stopped := true },
        (Pool.Put c8pool0 c8conn 0).2)) ∧
    (c8stopped.Put c8conn 0).1.pool = c8stopped.pool ++ [c8conn] ∧
    (c8stopped.Put c8conn 0).2.closed = [] ∧
    (c8stopped.Put c8conn 0).1.active = c8stopped.active ∧
    (c8stopped.Put c8conn 0).1.stopped = true :=
  ⟨C8_theorem.1 c8pool0 c8conn 0 true,
   C8_theorem.2 c8stopped c8conn 0 (by decide) (by decide) (by decide) (by decide)⟩

/-- Claim C9 at its failing input: the constructor does return a usable pool
(`okPool`), and sequentially `Get` creates connections on demand up to 5 and
then reports pool-exhausted — but the background probe goroutine computes its
ticker interval as `5 * time.Minute / time.Duration(size)` with `size = 0`,
an integer division by zero (`tickInterval 0 = none`), which panics and
crashes the process. -/
theorem C9_theorem :
    NewCustom "tcp" "a" 0 5 true = NewResult.okPool c9pool ∧
    tickInterval 0 = none ∧
    (iterGet c9pool 0 5).2 = true ∧
    (iterGet c9pool 0 5).1.active = 5 ∧
    isExhausted ((iterGet c9pool 0 5).1.Get 0).1 = true := by decide

set_option maxRecDepth 8000 in
/-- Claim C5 asserts that the hash tag is the substring strictly between the
first open brace and the next close brace, and in particular that the key
with an immediately-closed brace pair before "abc" hashes as the empty key.
False: the close-brace search starts two characters past the open brace, so
no tag is extracted and the whole five-character key is hashed, landing on a
different slot than the empty key. -/
theorem C5_counterexample :
    hashTag ("{}abc".data) = some ("{}abc".data) ∧
    specHashTag ("{}abc".data) = [] ∧
    slotOfKey "{}abc" ≠ slotOfKey "" := by decide

lemma updateA_keys {α : Type} (l : List (String × α)) (k : String) (v : α) :
    (updateA l k v).map Prod.fst = l.map Prod.fst := by
  induction l with
  | nil => rfl
  | cons e rest ih =>
    unfold updateA at ih ⊢
    by_cases h : e.fst = k
    · simp [h, ih]
    · simp [h, ih]

lemma randomFallback_keys (st : ClusterState) (now : Nat) :
    ((randomFallback st now).2).pools.map Prod.fst = st.pools.map Prod.fst := by
  unfold randomFallback
  split
  · rfl
  · split
    · simp [updateA_keys]
    · rfl

lemma randomFallback_mapping (st : ClusterState) (now : Nat) :
    ((randomFallback st now).2).mapping = st.mapping := by
  unfold randomFallback
  split
  · rfl
  · split
    · simp
    · rfl

lemma getConn_keys (st : ClusterState) (key addr : String) (now : Nat) :
    ((getConn st key addr now).2).pools.map Prod.fst = st.pools.map Prod.fst := by
  unfold getConn
  split
  · rfl
  · split
    · split
      · simp [updateA_keys]
      · exact randomFallback_keys st now
    · split
      · split
        · rfl
        · exact randomFallback_keys st now
      · exact randomFallback_keys st now

lemma getConn_mapping (st : ClusterState) (key addr : String) (now : Nat) :
    ((getConn st key addr now).2).mapping = st.mapping := by
  unfold getConn
  split
  · rfl
  · split
    · split
      · simp
      · exact randomFallback_mapping st now
    · split
      · split
        · rfl
        · exact randomFallback_mapping st now
      · exact randomFallback_mapping st now

/-- Claim C2 asserts that a redirected borrow to an unregistered address
records the freshly created pool in the registry.  False: `getConn` builds
the pool, borrows from it and drops it; the borrow succeeds yet the registry
still has no entry for the address. -/
theorem C2_counterexample :
    exOk (getConn stA "" "B:1" 0).1 = true ∧
    lookupA ((getConn stA "" "B:1" 0).2).pools "B:1" = none := by decide

/-- Claim C2, amended: the redirected borrow creates a fresh pool and borrows
from it, but the pool is NOT recorded: `getConn` never changes the set of
registry keys, so after the call `pools[addr]` exists only if it existed
before (each such redirected call builds a new orphaned pool). -/
theorem C2_theorem (st : ClusterState) (key addr : String) (now : Nat) :
    ((getConn st key addr now).2).pools.map Prod.fst = st.pools.map Prod.fst :=
  getConn_keys st key addr now

lemma get_no_close (p : Pool) (now : Nat) : (p.Get now).2.2.closed = [] := by
  unfold Pool.Get
  split
  · rfl
  · split
    · rfl
    · split
      · split
        · rfl
        · rfl
      · rfl

lemma get_ok_checkedOut (p : Pool) (now : Nat) (c : Conn) (p2 : Pool) (ev : Ev)
    (h : p.Get now = (.ok c, p2, ev)) : c ∈ p2.checkedOut := by
  unfold Pool.Get at h
  split at h
  · rw [Prod.mk.injEq, Prod.mk.injEq] at h
    obtain ⟨h1, h2, _⟩ := h
    cases h1
    rw [← h2]
    simp
  · split at h
    · rw [Prod.mk.injEq, Prod.mk.injEq] at h
      obtain ⟨h1, h2, _⟩ := h
      cases h1
      rw [← h2]
      simp
    · split at h
      · split at h
        · rw [Prod.mk.injEq, Prod.mk.injEq] at h
          obtain ⟨h1, h2, _⟩ := h
          cases h1
          rw [← h2]
          simp
        · simp at h
      · simp at h

lemma getEveryLoop_keys (now : Nat) (ps : List (String × Pool)) :
    ((getEveryLoop now ps).2.1).map Prod.fst = ps.map Prod.fst := by
  induction ps with
  | nil => rfl
  | cons e rest ih =>
    obtain ⟨a, p⟩ := e
    unfold getEveryLoop
    split
    · simp
    · simp [ih]

lemma lookupA_some_mem_keys {α : Type} (l : List (String × α)) (k : String)
    (v : α) (h : lookupA l k = some v) : k ∈ l.map Prod.fst := by
  induction l with
  | nil => exact absurd h (by simp [lookupA])
  | cons e rest ih =>
    unfold lookupA at h
    by_cases he : e.fst = k
    · simp [he]
    · rw [if_neg he] at h
      simp [ih h]

lemma getEveryLoop_err (now : Nat) (ps : List (String × Pool))
    (hnd : (ps.map Prod.fst).Nodup) (e : String)
    (ps2 : List (String × Pool)) (m : List (String × Conn)) (ev : Ev)
    (h : getEveryLoop now ps = (.error e, ps2, m, ev)) :
    ev.closed = [] ∧ ∀ a c, (a, c) ∈ m → heldBy ps2 a c := by
  induction ps generalizing ps2 m ev with
  | nil => exact absurd (congrArg (fun x => exOk x.1) h) (by simp [getEveryLoop, exOk])
  | cons hd rest ih =>
    obtain ⟨a, p⟩ := hd
    unfold getEveryLoop at h
    simp only [List.map_cons, List.nodup_cons] at hnd
    rcases hget : p.Get now with ⟨resG, pG, evG⟩
    rw [hget] at h
    cases resG with
    | error eG =>
      simp only [Prod.mk.injEq] at h
      obtain ⟨h1, hps2, hm, hev⟩ := h
      constructor
      · rw [← hev]
        have hc := get_no_close p now
        rw [hget] at hc
        exact hc
      · intro a2 c2 hmem
        rw [← hm] at hmem
        simp at hmem
    | ok c =>
      simp only [Prod.mk.injEq] at h
      obtain ⟨h1, hps2, hm, hev⟩ := h
      have hr := ih hnd.2 (getEveryLoop now rest).2.1
        (getEveryLoop now rest).2.2.1 (getEveryLoop now rest).2.2.2
        (by rw [← h1])
      constructor
      · rw [← hev]
        have hc1 : evG.closed = [] := by
          have hc := get_no_close p now
          rw [hget] at hc
          exact hc
        simp [Ev.app, hc1, hr.1]
      · intro a2 c2 hmem
        rw [← hm] at hmem
        rw [← hps2]
        rcases List.mem_cons.mp hmem with hhd | htl
        · rw [Prod.mk.injEq] at hhd
          obtain ⟨ha2, hc2⟩ := hhd
          rw [ha2, hc2]
          have hlk : lookupA ((a, pG) :: (getEveryLoop now rest).2.1) a = some pG := by
            simp [lookupA]
          unfold heldBy
          rw [hlk]
          exact get_ok_checkedOut p now c pG evG hget
        · have hheld := hr.2 a2 c2 htl
          have hkey : a2 ∈ ((getEveryLoop now rest).2.1).map Prod.fst := by
            unfold heldBy at hheld
            rcases hlk : lookupA ((getEveryLoop now rest).2.1) a2 with _ | v
            · rw [hlk] at hheld
              exact absurd hheld (fun hf => hf)
            · exact lookupA_some_mem_keys _ _ _ hlk
          have hne : a ≠ a2 := by
            rw [getEveryLoop_keys] at hkey
            intro hEq
            rw [hEq] at hnd
            exact hnd.1 hkey
          have hlk2 : lookupA ((a, pG) :: (getEveryLoop now rest).2.1) a2 =
              lookupA ((getEveryLoop now rest).2.1) a2 := by
            simp only [lookupA]
            rw [if_neg hne]
          unfold heldBy at hheld ⊢
          rw [hlk2]
          exact hheld

/-- Claim C10: when `GetEvery` fails to borrow from some pool, it returns
only the error — the connections already borrowed are neither returned (they
remain checked out of their pools in the final registry) nor closed (the
call produces no close event), so they leave circulation. -/
theorem C10_theorem (st : ClusterState) (now : Nat) (e : String)
    (hnd : (st.pools.map Prod.fst).Nodup)
    (herr : (GetEvery st now).1 = .error e) :
    (GetEvery st now).2.2.2.closed = [] ∧
    ∀ a c, (a, c) ∈ (GetEvery st now).2.2.1 →
      heldBy ((GetEvery st now).2.1).pools a c := by
  unfold GetEvery at herr ⊢
  rcases hloop : getEveryLoop now st.pools with ⟨res, ps2, m, ev⟩
  rw [hloop] at herr
  cases res with
  | ok u =>
    simp at herr
  | error e2 =>
    simp at herr ⊢
    subst herr
    exact getEveryLoop_err now st.pools hnd e2 ps2 m ev hloop

/-- Witness for C10_theorem: the second pool of the concrete registry is
exhausted; the connection already borrowed from the first pool stays checked
out and nothing is closed. -/
theorem C10_theorem_witness :
    (GetEvery stC10 0).2.2.2.closed = [] ∧
    heldBy ((GetEvery stC10 0).2.1).pools "A:1" ⟨0, "A:1", false⟩ :=
  ⟨(C10_theorem stC10 0 "redis: connection pool exhausted" (by decide) (by decide)).1,
   (C10_theorem stC10 0 "redis: connection pool exhausted" (by decide) (by decide)).2
     "A:1" ⟨0, "A:1", false⟩ (by decide)⟩

lemma lookupA_none_iff {α : Type} (l : List (String × α)) (k : String) :
    lookupA l k = none ↔ k ∉ l.map Prod.fst := by
  induction l with
  | nil => simp [lookupA]
  | cons e rest ih =>
    unfold lookupA
    by_cases he : e.fst = k
    · subst he
      simp
    · rw [if_neg he]
      rw [ih]
      simp only [List.map_cons, List.mem_cons]
      constructor
      · intro hn
        rintro (rfl | hmem)
        · exact he rfl
        · exact hn hmem
      · intro hn hmem
        exact hn (Or.inr hmem)

lemma insertA_mem_keys {α : Type} (l : List (String × α)) (k : String) (v : α)
    (a : String) :
    a ∈ (insertA l k v).map Prod.fst ↔ a = k ∨ a ∈ l.map Prod.fst := by
  unfold insertA
  by_cases hs : (lookupA l k).isSome
  · rw [if_pos hs]
    rw [updateA_keys]
    constructor
    · exact Or.inr
    · rintro (rfl | h)
      · rcases Option.isSome_iff_exists.mp hs with ⟨v2, hv⟩
        exact lookupA_some_mem_keys l a v2 hv
      · exact h
  · rw [if_neg hs]
    simp only [List.map_append, List.mem_append, List.map_cons, List.map_nil,
      List.mem_cons, List.not_mem_nil, or_false]
    tauto

lemma slotsFold_keys (o : Opts) (old : List (String × Pool)) (src : String)
    (gs : List SlotGroup) (acc : ResetAcc)
    (h : (slotsFold o old src gs acc).2 = none) (x : String) :
    x ∈ ((slotsFold o old src gs acc).1.newPools.map Prod.fst) ↔
      (x ∈ acc.newPools.map Prod.fst ∨ x ∈ gs.map (masterAddr src)) := by
  induction gs generalizing acc with
  | nil => simp [slotsFold]
  | cons g rest ih =>
    simp only [slotsFold] at h ⊢
    cases hlk : lookupA old (masterAddr src g) with
    | some sp =>
      rw [hlk] at h
      have h2 : (slotsFold o old src rest
          ⟨setRange acc.mapping g.start g.stop (masterAddr src g),
            insertA acc.newPools (masterAddr src g) sp, acc.changed⟩).2 = none := h
      show x ∈ List.map Prod.fst (slotsFold o old src rest
          ⟨setRange acc.mapping g.start g.stop (masterAddr src g),
            insertA acc.newPools (masterAddr src g) sp, acc.changed⟩).1.newPools ↔ _
      rw [ih _ h2]
      rw [insertA_mem_keys]
      simp only [List.map_cons, List.mem_cons]
      tauto
    | none =>
      rw [hlk] at h
      cases hnp : newPoolC (masterAddr src g) o with
      | error e =>
        rw [hnp] at h
        exact Option.noConfusion h
      | ok np =>
        rw [hnp] at h
        have h2 : (slotsFold o old src rest
            ⟨setRange acc.mapping g.start g.stop (masterAddr src g),
              insertA acc.newPools (masterAddr src g) np, true⟩).2 = none := h
        show x ∈ List.map Prod.fst (slotsFold o old src rest
            ⟨setRange acc.mapping g.start g.stop (masterAddr src g),
              insertA acc.newPools (masterAddr src g) np, true⟩).1.newPools ↔ _
        rw [ih _ h2]
        rw [insertA_mem_keys]
        simp only [List.map_cons, List.mem_cons]
        tauto

lemma sweepOld_mem (np : List (String × Pool)) (old : List (String × Pool))
    (a : String) :
    a ∈ (sweepOld np old).1 ↔ (a ∈ old.map Prod.fst ∧ lookupA np a = none) := by
  induction old with
  | nil => simp [sweepOld]
  | cons e rest ih =>
    obtain ⟨k, p⟩ := e
    unfold sweepOld
    by_cases hs : (lookupA np k).isSome
    · rw [if_pos hs]
      rw [ih]
      have hs2 : lookupA np k ≠ none := Option.isSome_iff_ne_none.mp hs
      simp only [List.map_cons, List.mem_cons]
      constructor
      · rintro ⟨hmem, hn⟩
        exact ⟨Or.inr hmem, hn⟩
      · rintro ⟨hak, hn⟩
        rcases hak with rfl | hmem
        · exact absurd hn hs2
        · exact ⟨hmem, hn⟩
    · rw [if_neg hs]
      have hs2 : lookupA np k = none := Option.not_isSome_iff_eq_none.mp hs
      simp only [List.mem_cons, ih, List.map_cons]
      constructor
      · rintro (rfl | ⟨hmem, hn⟩)
        · exact ⟨Or.inl rfl, hs2⟩
        · exact ⟨Or.inr hmem, hn⟩
      · rintro ⟨hak, hn⟩
        rcases hak with rfl | hmem
        · exact Or.inl rfl
        · exact Or.inr ⟨hmem, hn⟩

/-- Claim C3 asserts that after a successful Refresh the registry keys are
exactly the master addresses of the reply, and that every old pool outside
that set is emptied.  False: the registry seeded from pool A:1 and a reply
whose only master is 1.2.3.4:7 yields keys containing A:1 — the pool the
reply was obtained from is kept unconditionally — and nothing is emptied. -/
theorem C3_counterexample :
    (resetInner execOneGroup stA 0).res = .ok () ∧
    "A:1" ∈ (resetInner execOneGroup stA 0).st.pools.map Prod.fst ∧
    "A:1" ∉ ([⟨0, 3, "1.2.3.4", 7⟩] : List SlotGroup).map (masterAddr "A:1") ∧
    (resetInner execOneGroup stA 0).emptied = [] := by decide

/-- Claim C3, amended: after a successful (non-throttled) Refresh, the
registry keys are exactly the master addresses of the `CLUSTER SLOTS` reply
(an empty ip reading as the source pool's address) UNIONED with the source
pool's own address, which is kept unconditionally; the pools emptied and
dropped are exactly those of the old registry outside that union. -/
theorem C3_theorem (exec : ExecFn) (st : ClusterState) (now : Nat)
    (src : String) (p : Pool) (rest : List (String × Pool)) (client : Conn)
    (p2 : Pool) (evG : Ev) (gs : List SlotGroup)
    (hthr : st.throttleSet = false)
    (hsrc : st.pools = (src, p) :: rest)
    (hget : p.Get now = (.ok client, p2, evG))
    (hexec : exec src GoCmd.clusterSlots = .arr gs)
    (hne : gs ≠ [])
    (hfold : (slotsFold st.o (updateA st.pools src p2) src gs
        ⟨st.mapping, [(src, p2)], false⟩).2 = none) :
    (resetInner exec st now).res = .ok () ∧
    (∀ a, a ∈ (resetInner exec st now).st.pools.map Prod.fst ↔
      (a = src ∨ a ∈ gs.map (masterAddr src))) ∧
    (∀ a, a ∈ (resetInner exec st now).emptied ↔
      (a ∈ st.pools.map Prod.fst ∧
        ¬ (a = src ∨ a ∈ gs.map (masterAddr src)))) := by
  have hkeys0 : ∀ a : String, a ∈ ([(src, p2)] : List (String × Pool)).map Prod.fst ↔ a = src := by
    intro a
    simp
  have hnemp : gs.isEmpty = false := by
    cases gs with
    | nil => exact absurd rfl hne
    | cons g rest2 => rfl
  unfold resetInner
  rw [if_neg (by rw [hthr]; simp : ¬ st.throttleSet = true)]
  unfold resetBody
  unfold getRandomPoolInner
  have hpools : ({ st with throttleSet := true } : ClusterState).pools = (src, p) :: rest := hsrc
  rw [hpools]
  simp only [List.head?_cons]
  rw [hget]
  rw [hexec]
  simp only [Resp.arrOf]
  rw [hnemp]
  simp only [Bool.false_eq_true, if_false]
  rcases hfr : slotsFold st.o (updateA ((src, p) :: rest) src p2) src gs
      ⟨st.mapping, [(src, p2)], false⟩ with ⟨acc, errOpt⟩
  have hfr2 : (slotsFold st.o (updateA st.pools src p2) src gs
      ⟨st.mapping, [(src, p2)], false⟩) = (acc, errOpt) := by
    rw [hsrc]
    exact hfr
  rw [hfr2] at hfold
  simp only at hfold
  subst hfold
  have hkeys := slotsFold_keys st.o (updateA st.pools src p2) src gs
    ⟨st.mapping, [(src, p2)], false⟩ (by rw [hfr2])
  rw [hfr2] at hkeys
  simp only at hkeys
  have hukeys : (updateA st.pools src p2).map Prod.fst = st.pools.map Prod.fst :=
    updateA_keys st.pools src p2
  refine ⟨rfl, ?_, ?_⟩
  · intro a
    show a ∈ List.map Prod.fst acc.newPools ↔ _
    have h3 := hkeys a
    rw [hkeys0 a] at h3
    exact h3
  · intro a
    show a ∈ (sweepOld acc.newPools (updateA ((src, p) :: rest) src p2)).1 ↔ _
    rw [sweepOld_mem]
    have hu2 : (updateA ((src, p) :: rest) src p2).map Prod.fst =
        st.pools.map Prod.fst := by
      rw [← hsrc]
      exact hukeys
    rw [hu2]
    rw [lookupA_none_iff]
    have h3 := hkeys a
    rw [hkeys0 a] at h3
    rw [h3, hsrc]

lemma pair_eta_fst {α β : Type} (p : α × β) (x : α) (h : p.1 = x) :
    p = (x, p.2) := by
  rw [← h]

lemma hashTag_eq_amended (l : List Char) (h : hashTag l ≠ none) :
    hashTag l = some (amendedHashTag l) := by
  unfold hashTag amendedHashTag
  cases hidx : strIdxC '{' l with
  | none => rfl
  | some start =>
    by_cases hlen : start + 2 ≤ l.length
    · simp only [hlen, if_true]
      cases hidx2 : strIdxC '}' (l.drop (start + 2)) with
      | none => rfl
      | some e => rfl
    · exfalso
      apply h
      simp only [hashTag, hidx, hlen, if_false]

/-- Claim C5, amended: slot routing reduces the key to its hash tag — the
substring strictly between the first open brace and the first close brace
located at least two characters past it (an immediately-closed pair is thus
skipped and the whole key used) — and routes by CRC16 of that tag modulo
16384 (CRC16 modelled from the spec as the external pure slot hash). -/
theorem C5_theorem (st : ClusterState) (key : String)
    (h : hashTag key.data ≠ none) :
    addrForKeyInner st key =
      some (st.mapping
        (((crc16 ((amendedHashTag key.data).map Char.toNat)) % 16384 : Nat) : Int)) := by
  unfold addrForKeyInner slotOfKey
  rw [hashTag_eq_amended key.data h]
  rfl

set_option maxRecDepth 8000 in
/-- Witness for C5_theorem on the spec's example key with two brace pairs:
the tag is the first one, "bar". -/
theorem C5_theorem_witness :
    addrForKeyInner stA "foo{bar}baz{qux}" =
      some (stA.mapping
        (((crc16 ((amendedHashTag ("foo{bar}baz{qux}".data)).map Char.toNat))
          % 16384 : Nat) : Int)) ∧
    amendedHashTag ("foo{bar}baz{qux}".data) = "bar".data :=
  ⟨C5_theorem stA "foo{bar}baz{qux}" (by decide), by decide⟩

/-- Witness for C3_theorem at the concrete one-group reply. -/
theorem C3_theorem_witness :
    (resetInner execOneGroup stA 0).res = .ok () ∧
    ("1.2.3.4:7" ∈ (resetInner execOneGroup stA 0).st.pools.map Prod.fst ↔
      ("1.2.3.4:7" = "A:1" ∨
        "1.2.3.4:7" ∈ ([⟨0, 3, "1.2.3.4", 7⟩] : List SlotGroup).map (masterAddr "A:1"))) ∧
    ("A:1" ∈ (resetInner execOneGroup stA 0).emptied ↔
      ("A:1" ∈ stA.pools.map Prod.fst ∧
        ¬ ("A:1" = "A:1" ∨
          "A:1" ∈ ([⟨0, 3, "1.2.3.4", 7⟩] : List SlotGroup).map (masterAddr "A:1")))) :=
  ⟨(C3_theorem execOneGroup stA 0 "A:1" poolA [] ⟨0, "A:1", false⟩
      ((poolA.Get 0).2.1) Ev.nil [⟨0, 3, "1.2.3.4", 7⟩] (by decide) rfl (by decide)
      (by decide) (by decide) (by decide)).1,
   (C3_theorem execOneGroup stA 0 "A:1" poolA [] ⟨0, "A:1", false⟩
      ((poolA.Get 0).2.1) Ev.nil [⟨0, 3, "1.2.3.4", 7⟩] (by decide) rfl (by decide)
      (by decide) (by decide) (by decide)).2.1 "1.2.3.4:7",
   (C3_theorem execOneGroup stA 0 "A:1" poolA [] ⟨0, "A:1", false⟩
      ((poolA.Get 0).2.1) Ev.nil [⟨0, 3, "1.2.3.4", 7⟩] (by decide) rfl (by decide)
      (by decide) (by decide) (by decide)).2.2 "A:1"⟩

/-- Claim C4 asserts that the post-Refresh retry of the network-error ladder
runs with a fresh (empty) tried set.  False: the source passes `tried`
through, so the retry still carries the failed address. -/
theorem C4_counterexample :
    ((clientCmdStep exec4 stA cA false ["A:1"] false 0).2).isRetry = true ∧
    ((clientCmdStep exec4 stA cA false ["A:1"] false 0).2).resetOf = true ∧
    ((clientCmdStep exec4 stA cA false ["A:1"] false 0).2).triedOf = ["A:1"] ∧
    ¬ ((clientCmdStep exec4 stA cA false ["A:1"] false 0).2).triedOf = [] := by
  decide

/-- Claim C4, amended: on a network/I-O error, (1) a failing address not yet
tried is retried once on a fresh connection to the same address; (2)
otherwise, if no Refresh has happened, Refresh runs and its failure is
returned as the error; (3) on Refresh success the command is retried against
an arbitrary pool with `haveReset = true` and the tried set CARRIED OVER
(still containing every address tried so far, not a fresh set); (4)
otherwise the last error response is returned. -/
theorem C4_theorem :
    (∀ (exec : ExecFn) (st : ClusterState) (client : Conn)
        (tried : List String) (hr : Bool) (now : Nat) (msg : String)
        (c2 : Conn) (st2 : ClusterState),
      exec client.addr GoCmd.run = .ioErr msg →
      haveTried tried client.addr = false →
      getConn st "" client.addr now = (.ok c2, st2) →
      clientCmdStep exec st client false tried hr now =
        ([(client.addr, GoCmd.run)],
          .retry c2 false (justTried tried client.addr) hr st2)) ∧
    (∀ (exec : ExecFn) (st : ClusterState) (client : Conn)
        (tried : List String) (now : Nat) (msg e2 : String),
      exec client.addr GoCmd.run = .ioErr msg →
      haveTried tried client.addr = true →
      (resetInner exec st now).res = .error e2 →
      clientCmdStep exec st client false tried false now =
        ([(client.addr, GoCmd.run)],
          .done (.appErr ("Could not get cluster info: " ++ e2))
            (resetInner exec st now).st)) ∧
    (∀ (exec : ExecFn) (st : ClusterState) (client : Conn)
        (tried : List String) (now : Nat) (msg : String)
        (c2 : Conn) (st2 : ClusterState),
      exec client.addr GoCmd.run = .ioErr msg →
      haveTried tried client.addr = true →
      (resetInner exec st now).res = .ok () →
      getConn (resetInner exec st now).st "" "" now = (.ok c2, st2) →
      clientCmdStep exec st client false tried false now =
        ([(client.addr, GoCmd.run)], .retry c2 false tried true st2)) ∧
    (∀ (exec : ExecFn) (st : ClusterState) (client : Conn)
        (tried : List String) (now : Nat) (msg : String),
      exec client.addr GoCmd.run = .ioErr msg →
      haveTried tried client.addr = true →
      clientCmdStep exec st client false tried true now =
        ([(client.addr, GoCmd.run)], .done (.ioErr msg) st)) := by
  refine ⟨?_, ?_, ?_, ?_⟩
  · intro exec st client tried hr now msg c2 st2 hexec htried hg
    simp [clientCmdStep, clientCmdDispatch, hexec, Resp.errMsg, Resp.isNetErr,
      htried, hg]
  · intro exec st client tried now msg e2 hexec htried hres
    have hj : justTried tried client.addr = tried := by
      unfold justTried haveTried at *
      rw [if_pos htried]
    simp [clientCmdStep, clientCmdDispatch, hexec, Resp.errMsg, Resp.isNetErr,
      htried, ioResetLadder, hres, hj]
  · intro exec st client tried now msg c2 st2 hexec htried hres hg
    have hj : justTried tried client.addr = tried := by
      unfold justTried haveTried at *
      rw [if_pos htried]
    simp [clientCmdStep, clientCmdDispatch, hexec, Resp.errMsg, Resp.isNetErr,
      htried, ioResetLadder, hres, hg, hj]
  · intro exec st client tried now msg hexec htried
    simp [clientCmdStep, clientCmdDispatch, hexec, Resp.errMsg, Resp.isNetErr,
      htried, ioResetLadder]

/-- Witness for C4_theorem: its four branches at concrete states — the
first-retry branch, the Refresh-failure branch (empty registry), the
Refresh-success branch with the tried set carried over, and the give-up
branch. -/
theorem C4_theorem_witness :
    (clientCmdStep exec4 stA cA false [] false 0 =
      ([("A:1", GoCmd.run)],
        .retry ⟨0, "A:1", false⟩ false ["A:1"] false (getConn stA "" "A:1" 0).2)) ∧
    (clientCmdStep exec4 stEmpty cA false ["A:1"] false 0 =
      ([("A:1", GoCmd.run)],
        .done (.appErr ("Could not get cluster info: " ++
            "no available nodes to call CLUSTER SLOTS on"))
          (resetInner exec4 stEmpty 0).st)) ∧
    (clientCmdStep exec4 stA cA false ["A:1"] false 0 =
      ([("A:1", GoCmd.run)],
        .retry ⟨1, "A:1", false⟩ false ["A:1"] true
          (getConn (resetInner exec4 stA 0).st "" "" 0).2)) ∧
    (clientCmdStep exec4 stA cA false ["A:1"] true 0 =
      ([("A:1", GoCmd.run)], .done (.ioErr "io timeout") stA)) :=
  ⟨C4_theorem.1 exec4 stA cA [] false 0 "io timeout" ⟨0, "A:1", false⟩ _
      (by decide) (by decide)
      (pair_eta_fst (getConn stA "" "A:1" 0) (.ok ⟨0, "A:1", false⟩) (by decide)),
   C4_theorem.2.1 exec4 stEmpty cA ["A:1"] 0 "io timeout"
      "no available nodes to call CLUSTER SLOTS on" (by decide) (by decide) (by decide),
   C4_theorem.2.2.1 exec4 stA cA ["A:1"] 0 "io timeout" ⟨1, "A:1", false⟩ _
      (by decide) (by decide) (by decide)
      (pair_eta_fst (getConn (resetInner exec4 stA 0).st "" "" 0)
        (.ok ⟨1, "A:1", false⟩) (by decide)),
   C4_theorem.2.2.2 exec4 stA cA ["A:1"] 0 "io timeout" (by decide) (by decide)⟩

/-- Claim C1: a redirection to an address not yet tried is followed — for
MOVED the slot map entry is set to the new address before the retry (the
retry's state already carries the update); for ASK the slot map is unchanged
at every index and the retry is flagged to send ASKING; an iteration entered
with the ask flag issues ASKING before the command. -/
theorem C1_theorem :
    (∀ (exec : ExecFn) (st : ClusterState) (client : Conn)
        (tried : List String) (hr : Bool) (now : Nat) (msg : String)
        (slot : Int) (addr : String) (c2 : Conn) (st2 : ClusterState),
      exec client.addr GoCmd.run = .appErr msg →
      strStarts msg "MOVED " = true →
      strStarts msg "ASK " = false →
      redirectInfo msg = some (slot, addr) →
      haveTried (justTried tried client.addr) addr = false →
      getConn { st with mapping := mapSet st.mapping slot addr } "" addr now =
        (.ok c2, st2) →
      clientCmdStep exec st client false tried hr now =
        ([(client.addr, GoCmd.run)],
          .retry c2 false (justTried tried client.addr) hr st2) ∧
      st2.mapping slot = addr) ∧
    (∀ (exec : ExecFn) (st : ClusterState) (client : Conn)
        (tried : List String) (hr : Bool) (now : Nat) (msg : String)
        (slot : Int) (addr : String) (c2 : Conn) (st2 : ClusterState),
      exec client.addr GoCmd.run = .appErr msg →
      strStarts msg "MOVED " = false →
      strStarts msg "ASK " = true →
      redirectInfo msg = some (slot, addr) →
      haveTried (justTried tried client.addr) addr = false →
      getConn st "" addr now = (.ok c2, st2) →
      clientCmdStep exec st client false tried hr now =
        ([(client.addr, GoCmd.run)],
          .retry c2 true (justTried tried client.addr) hr st2) ∧
      (∀ i, st2.mapping i = st.mapping i)) ∧
    (∀ (exec : ExecFn) (st : ClusterState) (client : Conn)
        (tried : List String) (hr : Bool) (now : Nat),
      ((clientCmdStep exec st client true tried hr now).1).head? =
        some (client.addr, GoCmd.asking)) := by
  refine ⟨?_, ?_, ?_⟩
  · intro exec st client tried hr now msg slot addr c2 st2
      hexec hmoved hask hri htried hg
    constructor
    · simp [clientCmdStep, clientCmdDispatch, hexec, Resp.errMsg, Resp.isNetErr,
        hmoved, hask, hri, htried, hg]
    · have h4 : (getConn { st with mapping := mapSet st.mapping slot addr }
          "" addr now).2 = st2 := congrArg Prod.snd hg
      have h5 : st2.mapping = mapSet st.mapping slot addr := by
        rw [← h4, getConn_mapping]
      rw [h5]
      simp [mapSet]
  · intro exec st client tried hr now msg slot addr c2 st2
      hexec hmoved hask hri htried hg
    constructor
    · simp [clientCmdStep, clientCmdDispatch, hexec, Resp.errMsg, Resp.isNetErr,
        hmoved, hask, hri, htried, hg]
    · have h4 : (getConn st "" addr now).2 = st2 := congrArg Prod.snd hg
      have h5 : st2.mapping = st.mapping := by
        rw [← h4, getConn_mapping]
      intro i
      rw [h5]
  · intro exec st client tried hr now
    cases hra : (exec client.addr GoCmd.asking).errMsg with
    | none => simp [clientCmdStep, hra]
    | some m => simp [clientCmdStep, hra]

/-- Witness for C1_theorem: the MOVED and ASK scenarios of the spec (slot
7000 redirected from A:1 to B:1), and the ASKING preamble of an ask-flagged
iteration. -/
theorem C1_theorem_witness :
    (clientCmdStep execMoved stAB cA false [] false 0 =
      ([("A:1", GoCmd.run)],
        .retry cB false ["A:1"] false (getConn stABupd "" "B:1" 0).2) ∧
      ((getConn stABupd "" "B:1" 0).2).mapping 7000 = "B:1") ∧
    (clientCmdStep execAsk stAB cA false [] false 0 =
      ([("A:1", GoCmd.run)],
        .retry cB true ["A:1"] false (getConn stAB "" "B:1" 0).2) ∧
      (∀ i, ((getConn stAB "" "B:1" 0).2).mapping i = stAB.mapping i)) ∧
    ((clientCmdStep execAsk stAB cB true [] false 0).1).head? =
      some ("B:1", GoCmd.asking) :=
  ⟨C1_theorem.1 execMoved stAB cA [] false 0 "MOVED 7000 B:1" 7000 "B:1" cB _
      (by decide) (by decide) (by decide) (by decide) (by decide)
      (pair_eta_fst (getConn stABupd "" "B:1" 0) (.ok cB) (by decide)),
   C1_theorem.2.1 execAsk stAB cA [] false 0 "ASK 7000 B:1" 7000 "B:1" cB _
      (by decide) (by decide) (by decide) (by decide) (by decide)
      (pair_eta_fst (getConn stAB "" "B:1" 0) (.ok cB) (by decide)),
   C1_theorem.2.2 execAsk stAB cB [] false 0⟩

end RadixV2
